import Mathlib

set_option maxHeartbeats 2000000
set_option maxRecDepth 8000

/-!
Verification development for a two-pass assembler written in C
(pre-assembler, line parser, first pass, second pass, object emitter).

Modelling conventions, used uniformly below:
* C strings (char arrays read up to the terminating NUL) are `List Char`;
  reading `word[i]` inside the valid range is `charAt`, which returns the
  NUL character when out of range, exactly as C code that touches the
  terminator observes.
* C `int` values that can be negative (numeric operand values, symbol
  addresses) are `Int`; counters that provably stay non-negative in the
  modelled code paths (the second-pass `ic`/`dc`, which start at 0 and are
  only incremented) are `Nat`.
* The 14-bit machine words live in C `short` cells; a stored cell is
  modelled as the low 16 bits of the two is-complement pattern, a `Nat`
  below `65536` (`w16`).  `x |= v << k` becomes `Nat.lor` with the shifted
  pattern, which agrees with the C bit image on every bit the object
  emitter reads (bits 0..13 after `& 3` masking of 2-bit groups).
* `malloc` failure paths are not modelled (allocation always succeeds in
  the model); the corresponding "memory allocation failed" branches of the
  C code are therefore unreachable here and noted where they occur.
* The 19-bucket djb2 hash tables (symbols, macros) are modelled as single
  insertion-ordered lists with insertion at the front.  C lookup returns
  the first match in the bucket chain, i.e. the most recently inserted
  symbol of that name; `List.find?` over the front-inserted list returns
  exactly the same node, because same-name nodes always share a bucket and
  keep their relative order.  Only whole-table iteration order differs
  (bucket by bucket in C, insertion stack here), which no theorem below
  depends on.
-/

/-! ## ctype.h character classes (C locale, ASCII) and small helpers -/

/-- C `isspace`: space, \t, \n, \v, \f, \r. -/
def isspaceC (c : Char) : Bool :=
  c == ' ' || c == '\t' || c == '\n' || c == '\r' ||
    c.toNat == 11 || c.toNat == 12

/-- C `isalpha` in the C locale. -/
def isalphaC (c : Char) : Bool :=
  (97 ≤ c.toNat && c.toNat ≤ 122) || (65 ≤ c.toNat && c.toNat ≤ 90)

/-- C `isdigit`. -/
def isdigitC (c : Char) : Bool :=
  48 ≤ c.toNat && c.toNat ≤ 57

/-- C `isprint` in the C locale (ASCII 0x20..0x7e). -/
def isprintC (c : Char) : Bool :=
  32 ≤ c.toNat && c.toNat ≤ 126

/-- Read `word[i]` of a C string: the character at index `i`, or the NUL
terminator when `i` is past the end. -/
def charAt (l : List Char) (i : Nat) : Char :=
  l.getD i (Char.ofNat 0)

/-- A word separator for `get_word` (general.c): whitespace or comma. -/
def isSepC (c : Char) : Bool :=
  isspaceC c || c == ','

/-! ## general.c: tokenizer and keyword tables -/

/-- The leading `while (isspace(**line) || (**line) == ',') (*line)++;`
loop of `get_word`. -/
def skipSep : List Char → List Char
  | [] => []
  | c :: cs => if isSepC c then skipSep cs else c :: cs

/-- The character-collection loop of `get_word`: take characters until a
separator or the end of the string; returns the word and the rest of the
line (still starting at the separator, as the C pointer does). -/
def takeTok : List Char → List Char × List Char
  | [] => ([], [])
  | c :: cs =>
    if isSepC c then ([], c :: cs)
    else
      let p := takeTok cs
      (c :: p.1, p.2)

/-- `get_word` (general.c): skip separators, then return the next word and
the rest of the line; `none` models the NULL return at end of line (the
malloc-failure NULL return is not modelled). -/
def getWord (line : List Char) : Option (List Char × List Char) :=
  match skipSep line with
  | [] => none
  | c :: cs => some (takeTok (c :: cs))

/-- `is_register` (front_end.c): the ten register names and their indices. -/
def isRegisterW (w : List Char) : Option Nat :=
  if w = ['r', '0'] then some 0
  else if w = ['r', '1'] then some 1
  else if w = ['r', '2'] then some 2
  else if w = ['r', '3'] then some 3
  else if w = ['r', '4'] then some 4
  else if w = ['r', '5'] then some 5
  else if w = ['r', '6'] then some 6
  else if w = ['r', '7'] then some 7
  else if w = ['P', 'S', 'W'] then some 8
  else if w = ['P', 'C'] then some 9
  else none

/-- `is_directive` (general.c): `.data`(0), `.string`(1), `.entry`(2),
`.extern`(3). -/
def isDirectiveW (w : List Char) : Option Nat :=
  if w = ['.', 'd', 'a', 't', 'a'] then some 0
  else if w = ['.', 's', 't', 'r', 'i', 'n', 'g'] then some 1
  else if w = ['.', 'e', 'n', 't', 'r', 'y'] then some 2
  else if w = ['.', 'e', 'x', 't', 'e', 'r', 'n'] then some 3
  else none

/-- `is_operation` (general.c): the sixteen mnemonics, index order
mov cmp add sub not clr lea inc dec jmp bne red prn jsr rts hlt. -/
def isOperationW (w : List Char) : Option Nat :=
  if w = ['m', 'o', 'v'] then some 0
  else if w = ['c', 'm', 'p'] then some 1
  else if w = ['a', 'd', 'd'] then some 2
  else if w = ['s', 'u', 'b'] then some 3
  else if w = ['n', 'o', 't'] then some 4
  else if w = ['c', 'l', 'r'] then some 5
  else if w = ['l', 'e', 'a'] then some 6
  else if w = ['i', 'n', 'c'] then some 7
  else if w = ['d', 'e', 'c'] then some 8
  else if w = ['j', 'm', 'p'] then some 9
  else if w = ['b', 'n', 'e'] then some 10
  else if w = ['r', 'e', 'd'] then some 11
  else if w = ['p', 'r', 'n'] then some 12
  else if w = ['j', 's', 'r'] then some 13
  else if w = ['r', 't', 's'] then some 14
  else if w = ['h', 'l', 't'] then some 15
  else none

/-- The `.define` keyword recognised by `check_line_type`. -/
def defineTok : List Char := ['.', 'd', 'e', 'f', 'i', 'n', 'e']

/-! ## front_end.c: numbers and labels -/

/-- The maximal digit run consumed by `strtol` with the accumulated value. -/
def takeDigits : List Char → Int → Int × List Char
  | [], acc => (acc, [])
  | c :: cs, acc =>
    if isdigitC c then takeDigits cs (acc * 10 + (Int.ofNat c.toNat - 48))
    else (acc, c :: cs)

/-- `strtol(word, &end_ptr, 10)` on a separator-free token: optional sign
then a digit run; when no digit is consumed the end pointer stays at the
start of the token (so a bare sign is left wholly unconsumed), value 0. -/
def strtol10 (w : List Char) : Int × List Char :=
  match w with
  | '-' :: cs =>
    if isdigitC (charAt cs 0) then
      let p := takeDigits cs 0
      (-p.1, p.2)
    else (0, '-' :: cs)
  | '+' :: cs =>
    if isdigitC (charAt cs 0) then takeDigits cs 0
    else (0, '+' :: cs)
  | _ => takeDigits w 0

/-- `is_valid_num` (front_end.c): tokens longer than five characters are
rejected, the converted value must consume the whole token and fit the
signed 12-bit range −2048..2047; `none` is the `NON_VALID_NUM` return. -/
def isValidNum (w : List Char) : Option Int :=
  if w.length > 5 then none
  else
    let p := strtol10 w
    if p.2 ≠ [] then none
    else if -2048 ≤ p.1 ∧ p.1 ≤ 2047 then some p.1
    else none

/-- `is_label` (front_end.c).  `pre = true` is `pre_line_label` (the word
must end in a colon, excluded from the measured length), `pre = false` is
`operand_label`.  The length bound is `> MAX_LABEL_LEN` with
`MAX_LABEL_LEN = 32`; the first character must be alphabetic, all measured
characters alphanumeric, and the word without its suffix must not be a
register, directive or operation name.  True models `NO_ERRORS`. -/
def isLabelW (w : List Char) (pre : Bool) : Bool :=
  let lenWo : Nat := if pre then w.length - 1 else w.length
  if lenWo > 32 then false
  else if ¬ isalphaC (charAt w 0) then false
  else if pre ∧ charAt w lenWo ≠ ':' then false
  else if ¬ (List.range lenWo).all (fun i => isalphaC (charAt w i) || isdigitC (charAt w i)) then false
  else
    let wo := w.take lenWo
    if (isRegisterW wo).isSome || (isDirectiveW wo).isSome || (isOperationW wo).isSome then false
    else true

/-- The index of a `label[index]` operand: a number or a constant name,
as classified by `is_label_with_index`. -/
inductive IdxVal where
  | idxNum (n : Int)
  | idxConst (name : List Char)
deriving DecidableEq, Repr

/-- `is_label_with_index` (front_end.c): the first `[` must exist and not
open the word; the part before it must pass `is_label`; the first `]`
after it must be the last character of the word; the part between is a
valid number or else a valid label (a constant name).  `none` models the
`SYNTAX_OR_LOGIC_ERROR` return. -/
def isLabelWithIndexW (w : List Char) : Option (List Char × IdxVal) :=
  match w.findIdx? (fun c => c == '[') with
  | none => none
  | some pos =>
    if pos == 0 then none
    else
      let labelPart := w.take pos
      if ¬ isLabelW labelPart false then none
      else
        let afterBr := w.drop (pos + 1)
        match afterBr.findIdx? (fun c => c == ']') with
        | none => none
        | some cpos =>
          if cpos + 1 ≠ afterBr.length then none
          else
            let idxPart := afterBr.take cpos
            match isValidNum idxPart with
            | some n => some (labelPart, IdxVal.idxNum n)
            | none =>
              if isLabelW idxPart false then some (labelPart, IdxVal.idxConst idxPart)
              else none

/-! ## front_end.h: the line AST

The C `LINE_AST` keeps a discriminated union; the union members are
modelled as separate fields read only under the matching discriminant
(`atype` for the line, `dtype` for the directive).  Numeric enum codes are
kept as in the C headers:
line type: 0 error, 1 empty, 2 note, 3 dir, 4 inst, 5 constant_def;
operand type: 0 none, 1 number, 2 constant, 3 reg, 4 label,
5 label_with_index;
directive type: 0 data, 1 string, 2 entry, 3 ext. -/

/-- `INST_OPERAND` (front_end.h); `lbl` is the C `label` field and
`constName` the C `constant_name` field; zero initialisation gives type
`none` (0) and empty strings. -/
structure InstOperand where
  otype : Nat := 0
  num : Int := 0
  lbl : List Char := []
  constName : List Char := []
deriving DecidableEq, Repr

/-- One `.data` operand (`DATA` in front_end.h): an integer or a constant
name. -/
inductive DataOp where
  | dInt (n : Int)
  | dConst (name : List Char)
deriving DecidableEq, Repr

/-- `DIRECTIVE` (front_end.h).  `strCodes` models the `int str[]` member
holding the ASCII codes written by `check_dir_operand` (all of them
printable, hence non-zero, so the zero-terminated C scan sees exactly this
list). -/
structure DirectivePart where
  dtype : Nat := 0
  operandCounter : Nat := 0
  dataOps : List DataOp := []
  strCodes : List Int := []
  labelOperand : List Char := []
deriving DecidableEq, Repr

/-- `INSTRUCTION` (front_end.h): `src` is `operands[0]`
(`SOURCE_OPERAND = 0`), `dst` is `operands[1]` (`DESTINATION_OPERAND = 1`). -/
structure InstructionPart where
  itype : Nat := 0
  src : InstOperand := {}
  dst : InstOperand := {}
deriving DecidableEq, Repr

/-- `CONSTANT_DEFINITION` (front_end.h). -/
structure ConstDefPart where
  constName : List Char := []
  constNum : Int := 0
deriving DecidableEq, Repr

/-- `LINE_AST` (front_end.h); `lbl` is the pre-line label field. -/
structure LineAst where
  errorDetail : String := ""
  lbl : List Char := []
  atype : Nat := 0
  directive : DirectivePart := {}
  instruction : InstructionPart := {}
  constDef : ConstDefPart := {}
deriving DecidableEq, Repr

/-! Parser error messages, verbatim from front_end.c. -/

def msgLabelPlace : String := "a label is in an invalid place"

def msgFirstWord : String :=
  "the first word must be an instruction or directive or .define or label name"

def msgAfterLabel : String :=
  "after defining a label there must be an instruction  or directive"

def msgOnlyLabel : String := "the line contains only label name"

def msgLabelInConstDef : String :=
  "a label must not be defined in a constant definition line"

def msgDirNeedsOperand : String :=
  "a directive word must be followed by an operand"

def msgEntryExtOperand : String :=
  "an operand of entry and extern must be a proper name of a label"

def msgMemFail : String := "memory allocation failed"

def msgStrStart : String :=
  "after the string directive the operand must start with the character \" "

def msgStrAtLeastOne : String :=
  "a string directive must have at least one character after the quotation marks "

def msgStrNoClosing : String :=
  "in the operand of the directive string there is no closing hyphen"

def msgStrOnlyAlpha : String :=
  "the operand of the string directive must include only alphabetic letters between the 2 hyphenes"

def msgTwoCommas : String :=
  "there are 2 commas between a number and another number"

def msgTrailingComma : String := "there is a comma after the last number"

def msgDataInvalid : String :=
  "for the data directive, you can only enter integers that can be represented in 12 bits by the 2's complement method or or words that meet the syntax requirements of a label"

def msgMissingOperand : String := "missing operand"

def msgMultiCommas : String := "multiple commas between 2 operands"

def msgInappropriate : String :=
  "the operation type received an operand of an inappropriate type"

def msgHashNumConst : String := "# must be followed by a number or constant"

def msgHashConstNum : String := "# must be followed by a constant or a number"

def msgCommaAfterKey : String :=
  "there is a comma, after an instruction/directive/define"

def msgUnexpectedAfter : String := "unexpected characters after operands"

def msgDefineLabelSyn : String :=
  "the first word after .define does not follow the syntax rules for a label"

def msgMissingEq : String :=
  "missing the equality sign in a constant definition statment"

def msgMissingNum : String :=
  "missing a  number in a constant definition statement"

def msgNoValidNum : String :=
  "a no valid number is given in a constant definition statement"

def msgConstMissing : String :=
  "a constant definition is missing after the word define"

/-! ## front_end.c: `check_line_type`

The C word loop runs at most twice (only the first-word label branch
falls through to another iteration; every other branch returns), so it is
unrolled.  The function returns the partially filled AST together with the
advanced line pointer; for the `empty` return the C pointer sits at the
terminator after `get_word` consumed the separators. -/

def checkLineType (line : List Char) : LineAst × List Char :=
  if charAt line 0 == ';' then ({ atype := 2 }, line)
  else
    match getWord line with
    | none => ({ atype := 1 }, skipSep line)
    | some (w1, r1) =>
      if isLabelW w1 true then
        let ast1 : LineAst := { lbl := w1.dropLast }
        match getWord r1 with
        | none => ({ ast1 with atype := 0, errorDetail := msgOnlyLabel }, skipSep r1)
        | some (w2, r2) =>
          if isLabelW w2 true then
            ({ ast1 with atype := 0, errorDetail := msgLabelPlace }, r2)
          else
            match isDirectiveW w2 with
            | some d => ({ ast1 with atype := 3, directive := { dtype := d } }, r2)
            | none =>
              match isOperationW w2 with
              | some t => ({ ast1 with atype := 4, instruction := { itype := t } }, r2)
              | none =>
                if w2 = defineTok then
                  ({ ast1 with atype := 0, errorDetail := msgLabelInConstDef }, r2)
                else ({ ast1 with atype := 0, errorDetail := msgAfterLabel }, r2)
      else
        match isDirectiveW w1 with
        | some d => ({ atype := 3, directive := { dtype := d } }, r1)
        | none =>
          match isOperationW w1 with
          | some t => ({ atype := 4, instruction := { itype := t } }, r1)
          | none =>
            if w1 = defineTok then ({ atype := 5 }, r1)
            else ({ atype := 0, errorDetail := msgFirstWord }, r1)

/-! ## front_end.c: `check_dir_operand` -/

/-- The `.data` operand loop of `check_dir_operand`.  `commaCnt` is the C
`comma_cnt`.  The first argument is reduction fuel: every iteration of the
C loop consumes at least one character of the line, so fuel
`line.length + 1` (supplied by `dataLoop`) can never run out; the fuel-0
case is dead code present only to make the recursion structural. -/
def dataLoopF : Nat → List Char → List DataOp → Nat → Except String (List DataOp)
  | _, [], ops, commaCnt =>
    if commaCnt ≠ 0 then .error msgTrailingComma else .ok ops
  | 0, _ :: _, _, _ => .error msgMemFail
  | fuel + 1, c :: cs, ops, commaCnt =>
    if isspaceC c then dataLoopF fuel cs ops commaCnt
    else if c == ',' then
      if commaCnt > 0 then .error msgTwoCommas
      else dataLoopF fuel cs ops 1
    else
      let p := takeTok (c :: cs)
      match isValidNum p.1 with
      | some n => dataLoopF fuel p.2 (ops ++ [DataOp.dInt n]) 0
      | none =>
        if isLabelW p.1 false then dataLoopF fuel p.2 (ops ++ [DataOp.dConst p.1]) 0
        else .error msgDataInvalid

/-- The `.data` operand loop of `check_dir_operand` (front_end.c). -/
def dataLoop (line : List Char) (ops : List DataOp) (commaCnt : Nat) :
    Except String (List DataOp) :=
  dataLoopF (line.length + 1) line ops commaCnt

/-- `check_dir_operand` (front_end.c).  Returns the updated AST, the
advanced line, and whether the operand part parsed without error.  The
`get_word` NULL answers that the C code maps to "memory allocation failed"
are mirrored verbatim (they are reachable there only through allocation
failure or comma-only tails). -/
def checkDirOperand (ast : LineAst) (line : List Char) : LineAst × List Char × Bool :=
  if line = [] then
    ({ ast with errorDetail := msgDirNeedsOperand }, line, false)
  else if ast.directive.dtype == 2 || ast.directive.dtype == 3 then
    match getWord line with
    | none => ({ ast with errorDetail := msgMemFail }, line, false)
    | some (w, r) =>
      if ¬ isLabelW w false then
        ({ ast with errorDetail := msgEntryExtOperand }, r, false)
      else
        ({ ast with directive := { ast.directive with labelOperand := w } }, r, true)
  else if ast.directive.dtype == 1 then
    if charAt line 0 ≠ '"' then
      ({ ast with errorDetail := msgStrStart }, line, false)
    else
      let line1 := line.drop 1
      match getWord line1 with
      | none => ({ ast with errorDetail := msgStrAtLeastOne }, line1, false)
      | some (w, r) =>
        if charAt w (w.length - 1) ≠ '"' then
          ({ ast with errorDetail := msgStrNoClosing }, r, false)
        else if ¬ (w.take (w.length - 1)).all isprintC then
          ({ ast with errorDetail := msgStrOnlyAlpha }, r, false)
        else
          ({ ast with directive :=
              { ast.directive with
                strCodes := (w.take (w.length - 1)).map (fun c => Int.ofNat c.toNat) } },
            r, true)
  else
    match dataLoop line [] 0 with
    | .error e => ({ ast with errorDetail := e }, [], false)
    | .ok ops =>
      ({ ast with directive :=
          { ast.directive with dataOps := ops, operandCounter := ops.length } },
        [], true)

/-! ## front_end.c: `check_inst_operand` -/

/-- One iteration of the operand loop of `check_inst_operand` for the
operand slot `cnt` (0 = source, 1 = destination) of an instruction of
opcode `ty`.  Returns the parsed operand and the advanced line.  Branch
order follows the C code: `#` immediate, `is_label`, `is_label_with_index`,
`is_register`, final error.  The `get_word` NULL answer is mapped to
"missing operand" (the C alternative is the unmodelled allocation
failure). -/
def parseInstOperand (line : List Char) (ty : Nat) (cnt : Nat) :
    Except String (InstOperand × List Char) :=
  match getWord line with
  | none => .error msgMissingOperand
  | some (w, r) =>
    if charAt w 0 == '#' then
      if (cnt == 1 ∧ ty ≠ 1 ∧ ty ≠ 12) ∨ (cnt == 0 ∧ ty == 6) then
        .error msgInappropriate
      else if w.length == 1 then .error msgHashNumConst
      else
        match isValidNum (w.drop 1) with
        | some n => .ok ({ otype := 1, num := n }, r)
        | none =>
          if isLabelW (w.drop 1) false then
            .ok ({ otype := 2, constName := w.drop 1 }, r)
          else .error msgHashConstNum
    else if isLabelW w false then .ok ({ otype := 4, lbl := w }, r)
    else
      match isLabelWithIndexW w with
      | some (lb, idx) =>
        if cnt == 1 ∧ (ty == 9 ∨ ty == 10 ∨ ty == 13) then
          .error msgInappropriate
        else
          match idx with
          | IdxVal.idxNum n => .ok ({ otype := 5, lbl := lb, num := n }, r)
          | IdxVal.idxConst cn => .ok ({ otype := 5, lbl := lb, constName := cn }, r)
      | none =>
        match isRegisterW w with
        | some rg =>
          if cnt == 0 ∧ ty == 6 then .error msgInappropriate
          else .ok ({ otype := 3, num := Int.ofNat rg }, r)
        | none => .error msgInappropriate

/-- The inter-operand separator scan of `check_inst_operand`
(`while (isspace(**line) || (**line) == ',')` with the duplicate-comma
check); `flag` is the C `comma_flag`. -/
def commaScan (line : List Char) (flag : Nat) : Except String (List Char) :=
  match line with
  | [] => .ok []
  | c :: cs =>
    if isspaceC c then commaScan cs flag
    else if c == ',' then
      if flag > 0 then .error msgMultiCommas
      else commaScan cs 1
    else .ok (c :: cs)

/-- `check_inst_operand` (front_end.c).  The C loop starts at
`operand_cnt = 2` for `rts`/`hlt` (no operands), at `1` for the one-operand
opcodes (`type > sub && type < rts && type != lea`, so the single operand
lands in `operands[1]`, the destination slot), and at `0` for the
two-operand opcodes.  After the source operand the separator scan runs and
an empty remainder is "missing operand". -/
def checkInstOperand (line : List Char) (ty : Nat) :
    Except String (InstOperand × InstOperand × List Char) :=
  if ty ≥ 14 then .ok ({}, {}, line)
  else if 3 < ty ∧ ty < 14 ∧ ty ≠ 6 then
    match parseInstOperand line ty 1 with
    | .error e => .error e
    | .ok (op, r) => .ok ({}, op, r)
  else
    match parseInstOperand line ty 0 with
    | .error e => .error e
    | .ok (op0, r0) =>
      match commaScan r0 0 with
      | .error e => .error e
      | .ok r1 =>
        if r1 = [] then .error msgMissingOperand
        else
          match parseInstOperand r1 ty 1 with
          | .error e => .error e
          | .ok (op1, r2) => .ok (op0, op1, r2)

/-! ## front_end.c: `check_constant_def_operand` -/

/-- `check_constant_def_operand` (front_end.c).  The two `get_word` NULL
branches map to "memory allocation failed" exactly as in the C code (they
are reachable there through comma-only remainders as well). -/
def checkConstDefOperand (ast : LineAst) (line : List Char) : LineAst × List Char × Bool :=
  if line = [] then
    ({ ast with errorDetail := msgConstMissing }, line, false)
  else
    match getWord line with
    | none => ({ ast with errorDetail := msgMemFail }, line, false)
    | some (w1, r1) =>
      if ¬ isLabelW w1 false then
        ({ ast with errorDetail := msgDefineLabelSyn }, r1, false)
      else
        let ast1 := { ast with constDef := { ast.constDef with constName := w1 } }
        let r2 := r1.dropWhile isspaceC
        if charAt r2 0 ≠ '=' then
          ({ ast1 with errorDetail := msgMissingEq }, r2, false)
        else
          let r3 := (r2.drop 1).dropWhile isspaceC
          if r3 = [] then
            ({ ast1 with errorDetail := msgMissingNum }, r3, false)
          else
            match getWord r3 with
            | none => ({ ast1 with errorDetail := msgMemFail }, r3, false)
            | some (w2, r4) =>
              match isValidNum w2 with
              | none => ({ ast1 with errorDetail := msgNoValidNum }, r4, false)
              | some n =>
                ({ ast1 with constDef := { ast1.constDef with constNum := n } }, r4, true)

/-! ## front_end.c: `check_operand` and `create_ast_from_text` -/

/-- `check_operand` (front_end.c): skip leading whitespace, reject a
leading comma, dispatch on the line type, then reject trailing characters.
The boolean result is `syntax_flag ≠ error`; for `error`, `empty` and
`note` lines the C function returns `ast->type` itself, of which only the
`error` value (0) counts as failure in `create_ast_from_text`. -/
def checkOperand (ast : LineAst) (line : List Char) : LineAst × Bool :=
  let l1 := line.dropWhile isspaceC
  if charAt l1 0 == ',' then
    ({ ast with errorDetail := msgCommaAfterKey }, false)
  else if ast.atype == 0 then (ast, false)
  else if ast.atype == 1 ∨ ast.atype == 2 then (ast, true)
  else
    let step : LineAst × List Char × Bool :=
      if ast.atype == 3 then checkDirOperand ast l1
      else if ast.atype == 4 then
        match checkInstOperand l1 ast.instruction.itype with
        | .error e => ({ ast with errorDetail := e }, l1, false)
        | .ok (op0, op1, r) =>
          ({ ast with instruction := { ast.instruction with src := op0, dst := op1 } }, r, true)
      else checkConstDefOperand ast l1
    match step with
    | (ast2, _, false) => (ast2, false)
    | (ast2, rest, true) =>
      if rest.dropWhile isspaceC ≠ [] then
        ({ ast2 with errorDetail := msgUnexpectedAfter }, false)
      else (ast2, true)

/-- `create_ast_from_text` (front_end.c): classify the line, parse the
operand part, and demote the type to `error` (0) when the operand check
failed.  The early return on "memory allocation failed" is unreachable in
the model. -/
def createAstFromText (line : List Char) : LineAst :=
  let p := checkLineType line
  let q := checkOperand p.1 p.2
  if q.2 then q.1 else { q.1 with atype := 0 }

/-! ## first_pass.c: `memory_cell_calculator` -/

/-- `memory_cell_calculator` (first_pass.c).  Note that for the
one-operand opcodes the C code inspects `operands[0]` (the source slot)
even though `check_inst_operand` parses the single operand into
`operands[1]`; the model reproduces this faithfully via `src`. -/
def memoryCellCalculator (ast : LineAst) : Nat :=
  if ast.atype == 3 then
    if ast.directive.dtype == 1 then 1 + ast.directive.strCodes.length
    else ast.directive.operandCounter
  else
    if 3 < ast.instruction.itype ∧ ast.instruction.itype < 14 ∧ ast.instruction.itype ≠ 6 then
      if ast.instruction.src.otype == 5 then 3 else 2
    else if ast.instruction.itype ≤ 3 ∨ ast.instruction.itype == 6 then
      if ast.instruction.src.otype == 3 ∧ ast.instruction.dst.otype == 3 then 2
      else
        1 + (if ast.instruction.src.otype == 5 then 2 else 1)
          + (if ast.instruction.dst.otype == 5 then 2 else 1)
    else 1

/-! ## general.h / first_pass.c: the symbol table and the first pass

AsmSymbol kind codes as in general.h: 0 extern_sym,
1 entry_sym_without_definition, 2 data_entry_sym, 3 inst_entry_sym,
4 data_sym, 5 inst_sym, 6 const_sym. -/

/-- `SYMBOL` (general.h). -/
structure AsmSymbol where
  name : List Char
  stype : Nat
  address : Int
  value : Int
deriving DecidableEq, Repr

/-- `symbol_lookup` (general.c): the first match in the bucket chain, i.e.
the most recently inserted symbol of that name (front insertion). -/
def symbolLookup (name : List Char) (tbl : List AsmSymbol) : Option AsmSymbol :=
  tbl.find? (fun s => s.name == name)

/-- `insert_symbol` (first_pass.c): prepend at the bucket head. -/
def insertSymbol (tbl : List AsmSymbol) (s : AsmSymbol) : List AsmSymbol :=
  s :: tbl

/-- In-place mutation of the node returned by `symbol_lookup`: rewrite the
first symbol of the given name. -/
def updateFirstSym (tbl : List AsmSymbol) (name : List Char) (f : AsmSymbol → AsmSymbol) :
    List AsmSymbol :=
  match tbl with
  | [] => []
  | s :: rest =>
    if s.name == name then f s :: rest else s :: updateFirstSym rest name f

/-- The macro table carried from the pre-assembler: name and body lines,
front-inserted. -/
def MTable : Type := List (List Char × List (List Char))

/-- `macro_lookup` (pre_assembler.c) on the modelled table. -/
def mcrLookup (name : List Char) (mt : MTable) :
    Option (List Char × List (List Char)) :=
  (mt : List _).find? (fun m => m.1 == name)

/-- The streaming state of `first_pass`: the symbol table under
construction, the local `ic` (starting at 100), `dc` (starting at 0) and
the sticky error flag (`err_flag == SYNTAX_OR_LOGIC_ERROR`). -/
structure FpSt where
  symTable : List AsmSymbol
  ic : Int
  dc : Int
  errFlag : Bool
deriving DecidableEq, Repr

/-- One line of the streaming loop of `first_pass` (first_pass.c).  Every
error branch mirrors a `continue` of the C loop: it sets the sticky flag
and skips the rest of the line processing, including the counter
advancement.  The constant-definition branch looks up `line_ast.label`
(which is always empty on a `.define` line) exactly as the C code does. -/
def firstPassLine (mt : MTable) (st : FpSt) (lineNum : Nat) (line : List Char) : FpSt :=
  let ast := createAstFromText line
  if ast.atype == 0 then { st with errFlag := true }
  else if ast.atype == 3 ∨ ast.atype == 4 then
    let afterLabel : Option (List AsmSymbol) :=
      if ast.lbl ≠ [] then
        if (mcrLookup ast.lbl mt).isSome then none
        else
          match symbolLookup ast.lbl st.symTable with
          | some s =>
            if s.stype == 1 then
              if ast.atype == 3 then
                some (updateFirstSym st.symTable ast.lbl
                  (fun s0 => { s0 with stype := 2, address := st.dc }))
              else
                some (updateFirstSym st.symTable ast.lbl
                  (fun s0 => { s0 with stype := 3, address := st.ic }))
            else none
          | none =>
            if ast.atype == 4 then
              some (insertSymbol st.symTable ⟨ast.lbl, 5, st.ic, 0⟩)
            else
              some (insertSymbol st.symTable ⟨ast.lbl, 4, st.dc, 0⟩)
      else some st.symTable
    match afterLabel with
    | none => { st with errFlag := true }
    | some tbl1 =>
      if ast.atype == 4 then
        { st with symTable := tbl1, ic := st.ic + memoryCellCalculator ast }
      else if ast.directive.dtype == 0 ∨ ast.directive.dtype == 1 then
        { st with symTable := tbl1, dc := st.dc + memoryCellCalculator ast }
      else
        let nm := ast.directive.labelOperand
        if (mcrLookup nm mt).isSome then
          { st with symTable := tbl1, errFlag := true }
        else
          match symbolLookup nm tbl1 with
          | some s =>
            if ast.directive.dtype == 2 then
              if s.stype == 4 then
                { st with symTable := updateFirstSym tbl1 nm (fun s0 => { s0 with stype := 2 }) }
              else if s.stype == 5 then
                { st with symTable := updateFirstSym tbl1 nm (fun s0 => { s0 with stype := 3 }) }
              else { st with symTable := tbl1, errFlag := true }
            else { st with symTable := tbl1, errFlag := true }
          | none =>
            if ast.directive.dtype == 2 then
              { st with symTable := insertSymbol tbl1 ⟨nm, 1, 0, 0⟩ }
            else
              { st with symTable := insertSymbol tbl1 ⟨nm, 0, 0, 0⟩ }
  else if ast.atype == 5 then
    if (mcrLookup ast.constDef.constName mt).isSome then { st with errFlag := true }
    else
      match symbolLookup ast.lbl st.symTable with
      | some _ => { st with errFlag := true }
      | none =>
        let newSym : AsmSymbol :=
          ⟨ast.constDef.constName, 6, Int.ofNat lineNum, ast.constDef.constNum⟩
        { st with symTable := insertSymbol st.symTable newSym }
  else st

/-- The streaming loop of `first_pass` over the `.am` lines, with the
1-based line number. -/
def fpLines (mt : MTable) : List (List Char) → Nat → FpSt → FpSt
  | [], _, st => st
  | l :: ls, n, st => fpLines mt ls (n + 1) (firstPassLine mt st n l)

/-- The result of a completed first pass: the symbol table after
relocation, the entries list (front-inserted, so reverse walk order), its
counter, and the sticky error flag. -/
structure FpRes where
  symTable : List AsmSymbol
  entriesList : List AsmSymbol
  entriesCounter : Nat
  icEnd : Int
  dcEnd : Int
  errFlag : Bool
deriving DecidableEq, Repr

/-- The post-stream walk of `first_pass` (first_pass.c lines 405-443),
modelled with explicit fuel: `none` models non-termination of the C loop.
The walk reproduces the C control flow literally: on an
`entry_sym_without_definition` node the error is recorded and the loop
`continue`s WITHOUT advancing `sym_ptr`, so the same node is examined
again; otherwise data symbols are relocated by `ic` and entry symbols are
prepended to the entries list. -/
def fpEpilogue (fuel : Nat) (syms : List AsmSymbol) (ic : Int) (err : Bool)
    (accSyms : List AsmSymbol) (accEntries : List AsmSymbol) (accCnt : Nat) :
    Option FpRes :=
  match fuel with
  | 0 => none
  | fuel + 1 =>
    match syms with
    | [] => some ⟨accSyms.reverse, accEntries, accCnt, ic, 0, err⟩
    | s :: rest =>
      if s.stype == 1 then
        fpEpilogue fuel (s :: rest) ic true accSyms accEntries accCnt
      else
        let s1 := if s.stype == 2 ∨ s.stype == 4 then { s with address := s.address + ic } else s
        if s1.stype == 2 ∨ s1.stype == 3 then
          fpEpilogue fuel rest ic err (s1 :: accSyms) (s1 :: accEntries) (accCnt + 1)
        else
          fpEpilogue fuel rest ic err (s1 :: accSyms) accEntries accCnt

/-- `first_pass` (first_pass.c): stream the lines, then run the epilogue
walk; `none` models non-termination of the epilogue. -/
def firstPassRun (mt : MTable) (lines : List (List Char)) (fuel : Nat) : Option FpRes :=
  let st := fpLines mt lines 1 ⟨[], 100, 0, false⟩
  match fpEpilogue fuel st.symTable st.ic st.errFlag [] [] 0 with
  | none => none
  | some r =>
    some { r with icEnd := st.ic, dcEnd := st.dc, errFlag := st.errFlag || r.errFlag }

/-! ## general.h / assembler.c: the translation unit and the second pass -/

/-- `TRANSLATION_UNIT` (general.h).  The two images are index functions
(the C arrays of 3996 `short` cells, zero at start of `main`); `extList`
is the `EXT_SYMBOL` list, each entry the name with its front-inserted
address list. -/
structure TransUnit where
  instArr : Nat → Nat
  dataArr : Nat → Nat
  ic : Nat
  dc : Nat
  symTable : List AsmSymbol
  extList : List (List Char × List Nat)
  externalCounter : Nat
  entriesList : List AsmSymbol
  entriesCounter : Nat

/-- The low 16 bits of the two is-complement pattern of a C `int` value,
as stored into a `short` array cell. -/
def w16 (v : Int) : Nat := (v % 65536).toNat

/-- `instruction_array[ic] |= v` at the current `ic`. -/
def orAtIc (tu : TransUnit) (v : Nat) : TransUnit :=
  { tu with instArr := fun j => if j = tu.ic then tu.instArr j ||| v else tu.instArr j }

/-- `ic++`. -/
def icPlus1 (tu : TransUnit) : TransUnit := { tu with ic := tu.ic + 1 }

/-- `instruction_array[ic] |= v; ic++`. -/
def emitInst (tu : TransUnit) (v : Nat) : TransUnit := icPlus1 (orAtIc tu v)

/-- `data_array[dc] |= v` at the current `dc`. -/
def orAtDc (tu : TransUnit) (v : Nat) : TransUnit :=
  { tu with dataArr := fun j => if j = tu.dc then tu.dataArr j ||| v else tu.dataArr j }

/-- `dc++`. -/
def dcPlus1 (tu : TransUnit) : TransUnit := { tu with dc := tu.dc + 1 }

/-- `data_array[dc] |= v; dc++`. -/
def emitData (tu : TransUnit) (v : Nat) : TransUnit := dcPlus1 (orAtDc tu v)

/-- Prepend an address to the in-place node found by `ext_search`: rewrite
the first entry of the given name. -/
def updateFirstExt : List (List Char × List Nat) → List Char → Nat →
    List (List Char × List Nat)
  | [], _, _ => []
  | e :: rest, nm, a =>
    if e.1 == nm then (e.1, a :: e.2) :: rest
    else e :: updateFirstExt rest nm a

/-- `add_ext_address` (assembler.c): if `ext_search` finds the symbol, the
new address is prepended to its address list in place; otherwise a new
symbol carrying the single address is prepended to the list head. -/
def addExtAddress (lst : List (List Char × List Nat)) (nm : List Char) (a : Nat) :
    List (List Char × List Nat) :=
  if (lst.find? (fun x => x.1 == nm)).isSome then updateFirstExt lst nm a
  else (nm, [a]) :: lst

/-- The addressing-method code computed at the head of the second-pass
instruction branch (assembler.c lines 339-359): immediate, constant and
the unused slot give 0, a direct label 1, a label with index 2, a register
3. -/
def addressingOf (op : InstOperand) : Nat :=
  if op.otype == 1 ∨ op.otype == 2 ∨ op.otype == 0 then 0
  else if op.otype == 4 then 1
  else if op.otype == 5 then 2
  else 3

/-- One iteration of the second-pass operand-word loop (assembler.c lines
387-558) for operand `op` in slot `isSrc` of the line `lineNum`.  Error
branches mirror the C `continue`: the flag result is `true` when an error
was reported, and in that case no word is written and `ic` is not
advanced past the unwritten slot (for a label-with-index error on the
index word, the label word has already been emitted). -/
def secondPassOperand (tu : TransUnit) (op : InstOperand) (isSrc : Bool)
    (lineNum : Nat) : TransUnit × Bool :=
  if op.otype == 1 then
    (emitInst tu (w16 (op.num * 4)), false)
  else if op.otype == 2 then
    match symbolLookup op.constName tu.symTable with
    | some s =>
      if s.address < Int.ofNat lineNum then (emitInst tu (w16 (s.value * 4)), false)
      else (tu, true)
    | none => (tu, true)
  else if op.otype == 3 then
    if isSrc then (emitInst tu (w16 (op.num * 32)), false)
    else (emitInst tu (w16 (op.num * 4)), false)
  else if op.otype == 4 then
    match symbolLookup op.lbl tu.symTable with
    | some s =>
      if s.stype == 0 then
        let tu1 := orAtIc tu 1
        let tu2 := { tu1 with
          externalCounter := tu1.externalCounter + 1,
          extList := addExtAddress tu1.extList s.name tu.ic }
        (icPlus1 tu2, false)
      else
        (icPlus1 (orAtIc (orAtIc tu 2) (w16 (s.address * 4))), false)
    | none => (tu, true)
  else if op.otype == 5 then
    match symbolLookup op.lbl tu.symTable with
    | some s =>
      let tuB :=
        if s.stype == 0 then
          let tu1 := orAtIc tu 1
          icPlus1 { tu1 with
            externalCounter := tu1.externalCounter + 1,
            extList := addExtAddress tu1.extList s.name tu.ic }
        else icPlus1 (orAtIc (orAtIc tu 2) (w16 (s.address * 4)))
      if op.constName ≠ [] then
        match symbolLookup op.constName tuB.symTable with
        | some c =>
          if c.address < Int.ofNat lineNum then
            (icPlus1 (orAtIc tuB (w16 (c.value * 4))), false)
          else (tuB, true)
        | none => (tuB, true)
      else (icPlus1 (orAtIc tuB (w16 (op.num * 4))), false)
    | none => (tu, true)
  else (tu, false)

/-- The `.data` operand loop of the second pass (assembler.c lines
578-617).  The error `continue`s skip the `dc++`, so the next operand
lands in the same cell, exactly as in the C code. -/
def secondPassData (tu : TransUnit) (lineNum : Nat) : List DataOp → TransUnit × Bool
  | [] => (tu, false)
  | DataOp.dInt n :: rest =>
    let p := secondPassData (emitData tu (w16 n)) lineNum rest
    (p.1, p.2)
  | DataOp.dConst nm :: rest =>
    match symbolLookup nm tu.symTable with
    | some s =>
      if s.address < Int.ofNat lineNum then
        secondPassData (emitData tu (w16 s.value)) lineNum rest
      else
        let p := secondPassData tu lineNum rest
        (p.1, true)
    | none =>
      let p := secondPassData tu lineNum rest
      (p.1, true)

/-- One line of the second-pass loop (assembler.c `second_pass`): build
the first instruction word (addressing modes of `operands[0]` shifted by
4 and `operands[1]` shifted by 2, opcode shifted by 6), then the operand
words (one shared word when both operands are registers), or stream a
`.string`/`.data` directive into the data image.  The flag result records
whether some error was reported on this line. -/
def secondPassLine (tu : TransUnit) (lineNum : Nat) (line : List Char) :
    TransUnit × Bool :=
  let ast := createAstFromText line
  if ast.atype == 4 then
    let tu1 := orAtIc tu (addressingOf ast.instruction.src <<< 4)
    let tu2 := orAtIc tu1 (addressingOf ast.instruction.dst <<< 2)
    let tu3 := orAtIc tu2 (ast.instruction.itype <<< 6)
    let tu4 := icPlus1 tu3
    if ast.instruction.src.otype == 3 ∧ ast.instruction.dst.otype == 3 then
      let tu5 := orAtIc tu4 (w16 (ast.instruction.dst.num * 4))
      let tu6 := orAtIc tu5 (w16 (ast.instruction.src.num * 32))
      (icPlus1 tu6, false)
    else
      let p0 := secondPassOperand tu4 ast.instruction.src true lineNum
      let p1 := secondPassOperand p0.1 ast.instruction.dst false lineNum
      (p1.1, p0.2 || p1.2)
  else if ast.atype == 3 then
    if ast.directive.dtype == 1 then
      let tuS := ast.directive.strCodes.foldl (fun t code => emitData t (w16 code)) tu
      (dcPlus1 tuS, false)
    else if ast.directive.dtype == 0 then
      secondPassData tu lineNum ast.directive.dataOps
    else (tu, false)
  else (tu, false)

/-- The streaming loop of `second_pass` (assembler.c) over the `.am`
lines with the 1-based line number, accumulating the sticky error flag.
The result flag `false` models the `NO_ERRORS` return. -/
def secondPassRun : List (List Char) → Nat → TransUnit → Bool → TransUnit × Bool
  | [], _, tu, err => (tu, err)
  | l :: ls, n, tu, err =>
    let p := secondPassLine tu n l
    secondPassRun ls (n + 1) p.1 (err || p.2)

/-! ## back_end.c: the object file emitter -/

/-- The `Encrypted_base_four` alphabet of `create_object_file`. -/
def encAlphabet (d : Nat) : Char :=
  if d == 0 then '*' else if d == 1 then '#' else if d == 2 then '%' else '!'

/-- One object-file group: the seven 2-bit groups of a stored word, most
significant first (bits 12..13 down to bits 0..1), each mapped through the
alphabet, exactly as the `fprintf` of `create_object_file` orders them. -/
def encodeWord (w : Nat) : List Char :=
  [encAlphabet ((w >>> 12) % 4), encAlphabet ((w >>> 10) % 4),
   encAlphabet ((w >>> 8) % 4), encAlphabet ((w >>> 6) % 4),
   encAlphabet ((w >>> 4) % 4), encAlphabet ((w >>> 2) % 4),
   encAlphabet (w % 4)]

/-- The inverse character map of the spec: `*` 0, `#` 1, `%` 2, `!` 3. -/
def decDigitVal (c : Char) : Nat :=
  if c == '*' then 0 else if c == '#' then 1 else if c == '%' then 2
  else if c == '!' then 3 else 0

/-- Decoding a 7-character object-file group MSB-first. -/
def decodeGroup (cs : List Char) : Nat :=
  cs.foldl (fun acc c => acc * 4 + decDigitVal c) 0

/-- The decimal digits printed by `%d` for a non-negative value; fuel-based
so that the kernel can evaluate it (`n + 1` fuel always suffices). -/
def decDigitsCore : Nat → Nat → List Char → List Char
  | 0, _, acc => acc
  | fuel + 1, n, acc =>
    if n < 10 then Char.ofNat (48 + n) :: acc
    else decDigitsCore fuel (n / 10) (Char.ofNat (48 + n % 10) :: acc)

/-- `%d` of a non-negative value. -/
def decDigits (n : Nat) : List Char := decDigitsCore (n + 1) n []

/-- The first line of the `.ob` file:
`fprintf(ob_file, "  %d %d\n", curr_program->ic, curr_program->dc)`
(back_end.c line 55), printing the translation-unit `ic` and `dc` exactly
as second pass left them. -/
def obFirstLine (tu : TransUnit) : List Char :=
  ' ' :: ' ' :: decDigits tu.ic ++ ' ' :: decDigits tu.dc ++ ['\n']

/-! ## pre_assembler.c (src/unnamed/part_004): the macro pre-processor -/

/-- The keyword opening a macro definition. -/
def mcrTok : List Char := ['m', 'c', 'r']

/-- The keyword closing a macro definition. -/
def endmcrTok : List Char := ['e', 'n', 'd', 'm', 'c', 'r']

/-- The result of `line_identifier` (pre_assembler.c): the anonymous enum
error / macro_definition / end_macro_definition / macro_call /
note_sentence / any_other_line; `liMcrDef` carries the parsed macro name
(in C the macro is inserted and `*mcr_ptr` set before returning), and
`liCall` the called macro's name (in C `*mcr_ptr` is pointed at it). -/
inductive LiRes where
  | liErr
  | liMcrDef (name : List Char)
  | liEndDef
  | liCall (name : List Char)
  | liNote
  | liOther
deriving DecidableEq, Repr

/-- The word loop of `line_identifier` (pre_assembler.c).  `wordCnt`,
`mcrDef` and `endMcr` are the C `word_cnt`, `mcr_definition` and
`end_mcr` locals, `mcrName` the saved macro name.  The first argument is
reduction fuel: every loop iteration consumes at least one character of
the line, so `line.length + 1` (supplied by `lineIdentifier`) never runs
out; the fuel-0 case is dead code making the recursion structural.  After
the last word the C code distinguishes end-of-line from allocation
failure; only the end-of-line branch is modelled.  The final
`macro_lookup` before insertion is kept even though it always misses. -/
def liLoop (mt : MTable) : Nat → List Char → Nat → Bool → Bool → List Char → LiRes
  | 0, _, _, _, _, _ => LiRes.liErr
  | fuel + 1, line, wordCnt, mcrDef, endMcr, mcrName =>
    match getWord line with
    | none =>
      if mcrDef then
        if wordCnt == 1 then LiRes.liErr
        else if (mcrLookup mcrName mt).isNone then LiRes.liMcrDef mcrName
        else LiRes.liErr
      else if endMcr then LiRes.liEndDef
      else LiRes.liOther
    | some (w, r) =>
      let wordCnt := wordCnt + 1
      if wordCnt == 1 ∧ charAt w 0 == ';' then LiRes.liNote
      else if w = mcrTok then
        if wordCnt > 1 then LiRes.liErr
        else liLoop mt fuel r wordCnt true endMcr mcrName
      else if mcrDef then
        if wordCnt == 2 then
          if (mcrLookup w mt).isSome then LiRes.liErr
          else if (isDirectiveW w).isSome || (isOperationW w).isSome then LiRes.liErr
          else liLoop mt fuel r wordCnt mcrDef endMcr w
        else LiRes.liErr
      else if w = endmcrTok then liLoop mt fuel r wordCnt mcrDef true mcrName
      else if (mcrLookup w mt).isSome then LiRes.liCall w
      else if endMcr ∧ wordCnt > 1 then LiRes.liErr
      else liLoop mt fuel r wordCnt mcrDef endMcr mcrName

/-- `line_identifier` (pre_assembler.c) on one line. -/
def lineIdentifier (mt : MTable) (line : List Char) : LiRes :=
  liLoop mt (line.length + 1) line 0 false false []

/-- Append a recorded body line at the end of a macro's content
(`text_insert`, pre_assembler.c). -/
def appendBody (mt : MTable) (nm : List Char) (line : List Char) : MTable :=
  match mt with
  | [] => []
  | m :: rest =>
    if m.1 == nm then (m.1, m.2 ++ [line]) :: rest
    else m :: appendBody rest nm line

/-- The per-file state of `pre_assembly` (pre_assembler.c): the macro
table, `mcr_ptr` (the name of the macro it points at, if any),
`mcr_def_flag`, and the lines written to the `.am` file so far. -/
structure McrSt where
  table : MTable
  recPtr : Option (List Char)
  defFlag : Bool
  output : List (List Char)

/-- The 82-byte `fgets` of `pre_assembly`: read at most `n` characters,
stopping after a newline; returns the chunk and the unread remainder. -/
def fgetsChunk : List Char → Nat → List Char × List Char
  | l, 0 => ([], l)
  | [], _ => ([], [])
  | c :: cs, n + 1 =>
    if c == '\n' then ([c], cs)
    else
      let p := fgetsChunk cs n
      (c :: p.1, p.2)

/-- The byte the C line-length check actually searches for:
`strchr(line, EOF)` converts `EOF` (−1) to the `char` value, bit pattern
0xFF. -/
def charEOF : Char := Char.ofNat 255

/-- The line-length test of `pre_assembly` (pre_assembler.c line 452):
`(strchr(line, '\n') == NULL) && (strchr(line, EOF))` — no newline in the
buffer AND a 0xFF byte present in it. -/
def overlongCheck (chunk : List Char) : Bool :=
  (¬ chunk.contains '\n') && chunk.contains charEOF

/-- One line of the `pre_assembly` loop: the overlong test aborts the
file; otherwise dispatch on `line_identifier`.  A macro definition
inserts the (empty-bodied) macro and points `mcr_ptr` at it; `endmcr`
clears both the pointer and the flag; a macro call splices the stored
body into the output verbatim (no re-scan) and clears `mcr_ptr`; a
comment is emitted unchanged; any other line is appended to the macro
pointed at by `mcr_ptr` when recording, else emitted.  `none` models the
fatal path (close, `remove` the partial `.am`, return NULL). -/
def preStep (st : McrSt) (chunk : List Char) : Option McrSt :=
  if overlongCheck chunk then none
  else
    match lineIdentifier st.table chunk with
    | LiRes.liErr => none
    | LiRes.liMcrDef nm =>
      some { st with table := (nm, []) :: st.table, recPtr := some nm, defFlag := true }
    | LiRes.liEndDef => some { st with recPtr := none, defFlag := false }
    | LiRes.liCall nm =>
      let body := ((mcrLookup nm st.table).map Prod.snd).getD []
      some { st with output := st.output ++ body, recPtr := none }
    | LiRes.liNote => some { st with output := st.output ++ [chunk] }
    | LiRes.liOther =>
      match st.recPtr with
      | some nm => some { st with table := appendBody st.table nm chunk }
      | none => some { st with output := st.output ++ [chunk] }

/-- The chunked reading loop of `pre_assembly` over the whole `.as` text.
Fuel-based (every chunk of a non-empty source is non-empty, so
`src.length + 1` never runs out). -/
def preLoop : Nat → List Char → McrSt → Option McrSt
  | _, [], st => some st
  | 0, _ :: _, _ => none
  | fuel + 1, c :: cs, st =>
    let p := fgetsChunk (c :: cs) 81
    match preStep st p.1 with
    | none => none
    | some st' => preLoop fuel p.2 st'

/-- `pre_assembly` (pre_assembler.c) on the text of the `.as` file:
`none` models the NULL return (file skipped, partial `.am` removed);
`some` carries the `.am` lines and the populated macro table handed to
the following passes.  The final unclosed-definition check mirrors the C
`mcr_def_flag` test. -/
def preAssemblyRun (src : List Char) : Option (List (List Char) × MTable) :=
  match preLoop (src.length + 1) src ⟨[], none, false, []⟩ with
  | none => none
  | some st => if st.defFlag then none else some (st.output, st.table)

/-! ## assembler.c `main`: the per-file pipeline -/

/-- The `fgets(line, MAX_LINE_LEN, file)` chunking used by both passes to
stream a file (`MAX_LINE_LEN = 82`, so at most 81 characters per read).
Fuel-based; `src.length + 1` never runs out. -/
def fgetsLines : Nat → List Char → List (List Char)
  | _, [] => []
  | 0, _ :: _ => []
  | fuel + 1, c :: cs =>
    let p := fgetsChunk (c :: cs) 81
    p.1 :: fgetsLines fuel p.2

/-- All the lines `fgets` yields for a file. -/
def fileLines (src : List Char) : List (List Char) :=
  fgetsLines (src.length + 1) src

/-- The per-file pipeline of `main` (assembler.c): pre-assembly produces
the `.am` text and the macro table; `memset` zeroes the translation unit;
the first pass fills the symbol table and entries list (its local
`ic`/`dc` never touch the zeroed unit counters); the second pass runs
only when the first reported no error; the translation unit reaches
emission only when the second pass also reported none.  `none` therefore
models "this file never reaches the back end". -/
def assembleTU (src : List Char) (fuel : Nat) : Option TransUnit :=
  match preAssemblyRun src with
  | none => none
  | some (outLines, mt) =>
    let amLines := fileLines outLines.flatten
    match firstPassRun mt amLines fuel with
    | none => none
    | some r =>
      if r.errFlag then none
      else
        let tu0 : TransUnit :=
          ⟨fun _ => 0, fun _ => 0, 0, 0, r.symTable, [], 0, r.entriesList, r.entriesCounter⟩
        let p := secondPassRun amLines 1 tu0 false
        if p.2 then none else some p.1

/-! ## Invariant and concrete inputs used by the theorems below -/

/-- The instruction-image well-formedness carried through a second pass:
every cell from the current `ic` upwards is still zero (the image was
zeroed by `main`, writes advance with `ic`), and no cell carries the A/R/E
pattern 11 in its bits 0..1. -/
def instWF (tu : TransUnit) : Prop :=
  (∀ j, tu.ic ≤ j → tu.instArr j = 0) ∧ (∀ j, tu.instArr j % 4 ≠ 3)

/-- A source with a one-operand instruction whose single operand is a
label with index. -/
def c1src : List Char := "ARR: .data 6\ninc ARR[2]\n".toList

/-- The instruction line of `c1src`. -/
def c1line : List Char := "inc ARR[2]\n".toList

/-- The constant-plus-data example file of the specification (section 8,
scenario 2). -/
def c2src : List Char := ".define SZ = 5\nSTR: .string \"ab\"\n.entry STR\n".toList

/-- The `.ob` header line the code produces for `c2src`. -/
def c2headerActual : List Char := "  0 3\n".toList

/-- The `.ob` header line the claim predicts for `c2src`. -/
def c2headerClaimed : List Char := "  100 3\n".toList

/-- Macro `A` with body `x`, then macro `B` recorded while `A` is already
defined, with the invocation line `A` inside the body of `B`. -/
def c3src : List Char := "mcr A\nx\nendmcr\nmcr B\nA\nendmcr\n".toList

/-- The macro name `B` of `c3src`. -/
def c3nameB : List Char := ['B']

/-- An `.as` file whose single line holds 81 characters before its
newline: its terminator does not appear in the 81-character `fgets`
buffer. -/
def c4src : List Char := List.replicate 81 'a' ++ ['\n']

/-- The single line of an `.am` file that promises an entry which never
receives a definition. -/
def c5line : List Char := ".entry X\n".toList

/-- An `.am` file whose single line promises an entry that never receives
a definition. -/
def c5lines : List (List Char) := [c5line]

/-- A first `.define` line for the constant `K`. -/
def c6lineA : List Char := ".define K = 1\n".toList

/-- A second `.define` line for the same constant `K`. -/
def c6lineB : List Char := ".define K = 2\n".toList

/-- Two `.define` lines for the same constant name. -/
def c6lines : List (List Char) := [c6lineA, c6lineB]

/-- The constant name of `c6lines`. -/
def c6name : List Char := ['K']

/-- A `jmp` line whose destination operand is a register. -/
def c7line : List Char := "jmp r3".toList

/-- A file exercising extern references, register pairs and an indexed
label in the second pass. -/
def c8src : List Char :=
  ".extern EXT\nARR: .data 7\nmov EXT, r1\nlea ARR[1], r2\nhlt\n".toList

/-- A zeroed translation unit over a given symbol table, as `main` hands
it to the second pass. -/
def zeroTU (tbl : List AsmSymbol) : TransUnit :=
  ⟨fun _ => 0, fun _ => 0, 0, 0, tbl, [], 0, [], 0⟩

/-- The body line of macro `A` in `c3src`. -/
def c3bodyA : List Char := "x\n".toList

/-- An operand field holding a single immediate token. -/
def c7immRest : List Char := "#5".toList

/-- An operand field holding a single label-with-index token. -/
def c7lwiRest : List Char := "ARR[2]".toList

/-- An operand field holding a single register token. -/
def c7regRest : List Char := "r3".toList

/-- A recording state for the pre-assembler: macro `M` is being recorded,
macro `A` with body `x` is already defined. -/
def c3recSt : McrSt :=
  ⟨[(['M'], []), (['A'], [c3bodyA])], some ['M'], true, []⟩

/-- An ordinary body line for `c3recSt`. -/
def c3otherLine : List Char := "hlt\n".toList

/-- The invocation line naming the already defined macro `A`. -/
def c3callLine : List Char := "A\n".toList

/-- A post-first-pass symbol table with an external symbol, a data label
and a constant, used to exercise the second pass concretely. -/
def c8tbl : List AsmSymbol :=
  [⟨['E', 'X', 'T'], 0, 0, 0⟩, ⟨['A', 'R', 'R'], 4, 103, 0⟩, ⟨['K'], 6, 1, 1⟩]

/-- A line with an extern source operand and a register destination. -/
def c8lineA : List Char := "mov EXT, r1\n".toList

/-- A line whose two operands are registers. -/
def c8lineB : List Char := "mov r3, r4\n".toList

/-- A line with a constant-indexed label source operand. -/
def c8lineC : List Char := "lea ARR[K], r2\n".toList

/-- Second-pass lines exercising an extern reference, a register pair and
an indexed label over `c8tbl`. -/
def c8lines : List (List Char) := [c8lineA, c8lineB, c8lineC]

/-- Agreement on the translation-unit fields the second pass must not
touch: every symbol-table node and the entries list with its counter. -/
def sameSymEnt (a b : TransUnit) : Prop :=
  a.symTable = b.symTable ∧ a.entriesList = b.entriesList ∧
    a.entriesCounter = b.entriesCounter

/-! # Theorems

Helper lemmas first, then one theorem (plus witness or counterexample)
per claim. -/

theorem lorMod4 (a b : Nat) : (a ||| b) % 4 = (a % 4) ||| (b % 4) := by
  have h4 : (4 : Nat) = 2 ^ 2 := by norm_num
  rw [h4]
  apply Nat.eq_of_testBit_eq
  intro i
  simp only [Nat.testBit_mod_two_pow, Nat.testBit_lor]
  cases hd : decide (i < 2) <;> simp

theorem w16_mul4_mod4 (v : Int) : w16 (v * 4) % 4 = 0 := by
  simp only [w16]
  omega

theorem w16_mul32_mod4 (v : Int) : w16 (v * 32) % 4 = 0 := by
  simp only [w16]
  omega

theorem shl_mod4 (x k : Nat) (h : 2 ≤ k) : (x <<< k) % 4 = 0 := by
  rw [Nat.shiftLeft_eq]
  obtain ⟨m, hm⟩ : (4 : Nat) ∣ 2 ^ k := by
    have h2 : (2 : Nat) ^ 2 ∣ 2 ^ k := Nat.pow_dvd_pow 2 h
    simpa using h2
  have hx : x * (4 * m) = 4 * (x * m) := by ring
  rw [hm, hx, Nat.mul_mod_right]

/-- Claim C9: splitting a 14-bit word into seven 2-bit groups MSB-first,
mapping each through the alphabet star, hash, percent, bang as the object
emitter does, and decoding the characters back MSB-first through the
inverse map yields the word again. -/
theorem spec2_c9 (w : Nat) (h : w < 16384) : decodeGroup (encodeWord w) = w := by
  have hd : ∀ d : Nat, decDigitVal (encAlphabet (d % 4)) = d % 4 := by
    intro d
    have h4 : d % 4 = 0 ∨ d % 4 = 1 ∨ d % 4 = 2 ∨ d % 4 = 3 := by omega
    rcases h4 with h4 | h4 | h4 | h4 <;> rw [h4] <;> decide
  simp only [decodeGroup, encodeWord, List.foldl, hd]
  simp only [Nat.shiftRight_eq_div_pow]
  omega

theorem spec2_c9_witness :
    12345 < 16384 ∧ decodeGroup (encodeWord 12345) = 12345 :=
  ⟨by decide, spec2_c9 12345 (by decide)⟩

/-- Claim C4 (code bug): the over-80-characters check of `pre_assembly`
never fires on ordinary input.  For the file whose single line holds 81
characters before its newline, the first `fgets` buffer indeed carries 81
characters and no newline, yet the C condition
`strchr(line, '\n') == NULL && strchr(line, (char)EOF)` is false (the
buffer holds no 0xFF byte), so instead of the claimed fatal diagnostic
and NULL return, pre-assembly processes the fragment as an ordinary line
and succeeds. -/
theorem spec2_c4_bug :
    (fgetsChunk c4src 81).1.length = 81 ∧
    (fgetsChunk c4src 81).1.contains '\n' = false ∧
    overlongCheck (fgetsChunk c4src 81).1 = false ∧
    (preAssemblyRun c4src).isSome = true := by
  refine ⟨by decide, by decide, by decide, by decide⟩

/-- Claim C6 (code bug): processing two `.define K = N` lines, the first
pass looks up `line_ast.label` — the empty pre-line label of a `.define`
line — instead of the constant name, finds nothing, reports nothing, and
inserts a second symbol named `K`: the sticky error flag stays clear and
name uniqueness is violated. -/
theorem spec2_c6_bug :
    (firstPassRun [] c6lines 10).map
      (fun r => ((r.symTable.filter (fun s => s.name == c6name)).length, r.errFlag)) =
    some (2, false) := by rfl

/-- Claim C2 counterexample: on the specification's own
constant-plus-data example (no instructions, three data words) the file
reaches emission and the `.ob` header line is two spaces, `0`, one space,
`3` — the printed `ic` is the count of instruction words (the second-pass
counter starting at 0), not 100 plus that count, so the claimed header
with `100` is wrong. -/
theorem spec2_c2_cex :
    (assembleTU c2src 10).map obFirstLine = some c2headerActual ∧
    c2headerActual ≠ c2headerClaimed := by
  refine ⟨by rfl, by decide⟩

/-- Claim C7 counterexample: `jmp r3` — a `jmp` whose destination operand
is a register — parses to an instruction AST (type `inst`, opcode 9,
destination operand of register kind, number 3) instead of the claimed
`Error{"the operation type received an operand of an inappropriate
type"}`. -/
theorem spec2_c7_cex :
    (createAstFromText c7line).atype = 4 ∧
    (createAstFromText c7line).instruction.itype = 9 ∧
    (createAstFromText c7line).instruction.dst =
      { otype := 3, num := 3 } := by
  refine ⟨by decide, by decide, by decide⟩

/-- Claim C1 (code bug): for `inc ARR[2]` — a one-operand instruction
whose single operand is a label with index — `memory_cell_calculator`
returns 2 (it inspects `operands[0]`, but the parser stores the single
operand in `operands[1]`), while the second pass emits 3 words for the
line; both passes report no error (the pipeline reaches emission), the
first pass ends with `ic = 102` (= 100 + 2) and the second with
`ic = 3`. -/
theorem spec2_c1_bug :
    memoryCellCalculator (createAstFromText c1line) = 2 ∧
    (firstPassRun [] (fileLines c1src) 10).map (fun r => r.icEnd) = some 102 ∧
    (assembleTU c1src 10).map (fun tu => tu.ic) = some 3 := by
  refine ⟨by decide, by rfl, by rfl⟩

/-- Claim C3 counterexample: in the file defining macro `A` (body `x`),
then recording macro `B` whose body holds the single line `A`, the line
`A` is not stored in the body of `B`: pre-assembly expands it on the
spot, so the final `.am` output is the body of `A` and the recorded body
of `B` is empty — against the claim that every body line is appended
verbatim and nothing is emitted during recording. -/
theorem spec2_c3_cex :
    (preAssemblyRun c3src).map (fun p => (p.1, mcrLookup c3nameB p.2)) =
    some ([c3bodyA], some (c3nameB, [])) := by rfl

theorem fpEpilogue_pending (fuel : Nat) (s : AsmSymbol) (rest : List AsmSymbol)
    (ic : Int) (err : Bool) (a b : List AsmSymbol) (c : Nat) (h : s.stype = 1) :
    fpEpilogue fuel (s :: rest) ic err a b c = none := by
  induction fuel generalizing err with
  | zero => rfl
  | succ fuel ih =>
    simp only [fpEpilogue, h]
    exact ih true

/-- Claim C5 (code bug): streaming the single line `.entry X` leaves `X`
with kind `entry_pending`; in the post-stream walk the C code prints the
"defined as an entry but did not receive a value" diagnostic and then
`continue`s WITHOUT advancing the node pointer, so the loop never leaves
that node: for every amount of fuel the modelled `first_pass` fails to
complete, i.e. it does not terminate and never returns the claimed
non-fatal error code. -/
theorem spec2_c5_bug : ∀ fuel : Nat, firstPassRun [] c5lines fuel = none := by
  intro fuel
  have h1 : fpLines [] c5lines 1 ⟨[], 100, 0, false⟩ =
      (⟨[⟨['X'], 1, 0, 0⟩], 100, 0, false⟩ : FpSt) := by rfl
  simp only [firstPassRun, h1]
  rw [fpEpilogue_pending fuel ⟨['X'], 1, 0, 0⟩ [] 100 false [] [] 0 rfl]

/-- Claim C7 amended: for `jmp`, `bne`, `jsr` (opcodes 9, 10, 13) the
destination operand check rejects an immediate token (one starting with
`#`) and a label-with-index token with
`Error{"the operation type received an operand of an inappropriate
type"}`, but a register token is accepted and stored as a register
operand in the destination slot. -/
theorem spec2_c7_amended :
    (∀ line w r ty, getWord line = some (w, r) → charAt w 0 = '#' →
      ty = 9 ∨ ty = 10 ∨ ty = 13 →
      checkInstOperand line ty = .error msgInappropriate) ∧
    (∀ line w r lb idx ty, getWord line = some (w, r) → charAt w 0 ≠ '#' →
      isLabelW w false = false → isLabelWithIndexW w = some (lb, idx) →
      ty = 9 ∨ ty = 10 ∨ ty = 13 →
      checkInstOperand line ty = .error msgInappropriate) ∧
    (∀ line w r rg ty, getWord line = some (w, r) → charAt w 0 ≠ '#' →
      isLabelW w false = false → isLabelWithIndexW w = none →
      isRegisterW w = some rg → ty = 9 ∨ ty = 10 ∨ ty = 13 →
      checkInstOperand line ty = .ok ({}, { otype := 3, num := Int.ofNat rg }, r)) := by
  refine ⟨?_, ?_, ?_⟩
  · intro line w r ty hw h hty
    rcases hty with hty | hty | hty <;> subst hty <;>
      simp +decide [checkInstOperand, parseInstOperand, hw, h]
  · intro line w r lb idx ty hw hne hlab hlwi hty
    rcases hty with hty | hty | hty <;> subst hty <;>
      simp +decide [checkInstOperand, parseInstOperand, hw, hne, hlab, hlwi]
  · intro line w r rg ty hw hne hlab hlwi hreg hty
    rcases hty with hty | hty | hty <;> subst hty <;>
      simp +decide [checkInstOperand, parseInstOperand, hw, hne, hlab, hlwi, hreg]

theorem spec2_c7_amended_witness :
    checkInstOperand c7immRest 9 = .error msgInappropriate ∧
    checkInstOperand c7lwiRest 10 = .error msgInappropriate ∧
    checkInstOperand c7regRest 13 = .ok ({}, { otype := 3, num := 3 }, []) :=
  ⟨spec2_c7_amended.1 c7immRest ['#', '5'] [] 9 (by decide) (by decide) (Or.inl rfl),
   spec2_c7_amended.2.1 c7lwiRest c7lwiRest [] ['A', 'R', 'R'] (IdxVal.idxNum 2) 10
     (by decide) (by decide) (by decide) (by decide) (Or.inr (Or.inl rfl)),
   spec2_c7_amended.2.2 c7regRest ['r', '3'] [] 3 13
     (by decide) (by decide) (by decide) (by decide) (by decide) (Or.inr (Or.inr rfl))⟩

theorem sameSymEnt_refl (a : TransUnit) : sameSymEnt a a := ⟨rfl, rfl, rfl⟩

theorem sameSymEnt_trans (a b c : TransUnit) (h1 : sameSymEnt a b)
    (h2 : sameSymEnt b c) : sameSymEnt a c :=
  ⟨h1.1.trans h2.1, h1.2.1.trans h2.2.1, h1.2.2.trans h2.2.2⟩

theorem secondPassOperand_frame (tu : TransUnit) (op : InstOperand)
    (isSrc : Bool) (n : Nat) :
    sameSymEnt (secondPassOperand tu op isSrc n).1 tu := by
  unfold secondPassOperand
  dsimp only
  repeat' split
  all_goals simp [sameSymEnt, emitInst, icPlus1, orAtIc]

theorem emitData_frame (tu : TransUnit) (v : Nat) :
    sameSymEnt (emitData tu v) tu := by
  simp [sameSymEnt, emitData, dcPlus1, orAtDc]

theorem secondPassData_frame (ops : List DataOp) (tu : TransUnit) (n : Nat) :
    sameSymEnt (secondPassData tu n ops).1 tu := by
  induction ops generalizing tu with
  | nil => exact sameSymEnt_refl tu
  | cons op rest ih =>
    cases op with
    | dInt v =>
      simp only [secondPassData]
      exact sameSymEnt_trans _ _ _ (ih (emitData tu (w16 v))) (emitData_frame tu (w16 v))
    | dConst nm =>
      simp only [secondPassData]
      split
      · split
        · exact sameSymEnt_trans _ _ _ (ih _) (emitData_frame tu _)
        · exact ih tu
      · exact ih tu

theorem strFold_frame (codes : List Int) (tu : TransUnit) :
    sameSymEnt (codes.foldl (fun t code => emitData t (w16 code)) tu) tu := by
  induction codes generalizing tu with
  | nil => exact sameSymEnt_refl tu
  | cons c rest ih =>
    simp only [List.foldl]
    exact sameSymEnt_trans _ _ _ (ih (emitData tu (w16 c))) (emitData_frame tu (w16 c))

theorem secondPassLine_frame (tu : TransUnit) (n : Nat) (line : List Char) :
    sameSymEnt (secondPassLine tu n line).1 tu := by
  unfold secondPassLine
  dsimp only
  split
  · split
    · simp [sameSymEnt, icPlus1, orAtIc]
    · refine sameSymEnt_trans _ _ _ (secondPassOperand_frame _ _ _ _)
        (sameSymEnt_trans _ _ _ (secondPassOperand_frame _ _ _ _) ?_)
      simp [sameSymEnt, icPlus1, orAtIc]
  · split
    · split
      · exact sameSymEnt_trans _
          ((createAstFromText line).directive.strCodes.foldl
            (fun t code => emitData t (w16 code)) tu) tu
          (by simp [sameSymEnt, dcPlus1])
          (strFold_frame (createAstFromText line).directive.strCodes tu)
      · split
        · exact secondPassData_frame _ tu n
        · exact sameSymEnt_refl tu
    · exact sameSymEnt_refl tu

/-- Claim C10: the second pass modifies only the images, the counters and
the externals data; for every node of the symbol table, its name, kind,
address and value after `second_pass` equal their values before, and the
entries list and entries counter are unchanged, whatever lines it
streams and whatever state it starts from. -/
theorem spec2_c10 (lines : List (List Char)) (n : Nat) (tu : TransUnit) (err : Bool) :
    (secondPassRun lines n tu err).1.symTable = tu.symTable ∧
    (secondPassRun lines n tu err).1.entriesList = tu.entriesList ∧
    (secondPassRun lines n tu err).1.entriesCounter = tu.entriesCounter := by
  induction lines generalizing n tu err with
  | nil => exact ⟨rfl, rfl, rfl⟩
  | cons l rest ih =>
    simp only [secondPassRun]
    exact sameSymEnt_trans _ _ _ (ih _ _ _) (secondPassLine_frame tu n l)

theorem instWF_write (tu tu' : TransUnit) (v : Nat)
    (harr : ∀ j, tu'.instArr j = if j = tu.ic then tu.instArr j ||| v else tu.instArr j)
    (hic : tu'.ic = tu.ic) (hwf : instWF tu) (hv : v % 4 ≠ 3) :
    instWF (icPlus1 tu') := by
  constructor
  · intro j hj
    simp only [icPlus1] at hj ⊢
    rw [harr j]
    rw [hic] at hj
    have hne : ¬ j = tu.ic := by omega
    simp only [hne, if_false]
    exact hwf.1 j (by omega)
  · intro j
    simp only [icPlus1]
    rw [harr j]
    by_cases hje : j = tu.ic
    · simp only [hje, if_true]
      rw [hwf.1 tu.ic (le_refl _)]
      simpa using hv
    · simp only [hje, if_false]
      exact hwf.2 j

theorem instWF_emitInst (tu : TransUnit) (v : Nat) (hwf : instWF tu)
    (hv : v % 4 ≠ 3) : instWF (emitInst tu v) :=
  instWF_write tu (orAtIc tu v) v (fun _ => rfl) rfl hwf hv

theorem instWF_emit2 (tu : TransUnit) (a b : Nat) (hwf : instWF tu)
    (hv : (a ||| b) % 4 ≠ 3) : instWF (icPlus1 (orAtIc (orAtIc tu a) b)) := by
  refine instWF_write tu _ (a ||| b) ?_ rfl hwf hv
  intro j
  by_cases hje : j = tu.ic <;> simp [orAtIc, hje, Nat.lor_assoc]

theorem instWF_emit3 (tu : TransUnit) (a b c : Nat) (hwf : instWF tu)
    (hv : (a ||| b ||| c) % 4 ≠ 3) :
    instWF (icPlus1 (orAtIc (orAtIc (orAtIc tu a) b) c)) := by
  refine instWF_write tu _ (a ||| b ||| c) ?_ rfl hwf hv
  intro j
  by_cases hje : j = tu.ic <;> simp [orAtIc, hje, Nat.lor_assoc]

theorem instWF_emitExt (tu : TransUnit) (x : Nat) (y : List (List Char × List Nat))
    (hwf : instWF tu) :
    instWF (icPlus1 { orAtIc tu 1 with externalCounter := x, extList := y }) :=
  instWF_write tu _ 1 (fun _ => rfl) rfl hwf (by decide)

theorem secondPassOperand_wf (tu : TransUnit) (op : InstOperand) (isSrc : Bool)
    (n : Nat) (hwf : instWF tu) : instWF (secondPassOperand tu op isSrc n).1 := by
  unfold secondPassOperand
  dsimp only
  repeat' split
  all_goals
    first
    | exact hwf
    | exact instWF_emitInst _ _ hwf (by rw [w16_mul4_mod4]; decide)
    | exact instWF_emitInst _ _ hwf (by rw [w16_mul32_mod4]; decide)
    | exact instWF_emitExt _ _ _ hwf
    | exact instWF_emit2 _ _ _ hwf (by rw [lorMod4, w16_mul4_mod4]; decide)
    | exact instWF_emitInst _ _ (instWF_emitExt _ _ _ hwf)
        (by rw [w16_mul4_mod4]; decide)
    | exact instWF_emitInst _ _
        (instWF_emit2 _ _ _ hwf (by rw [lorMod4, w16_mul4_mod4]; decide))
        (by rw [w16_mul4_mod4]; decide)

theorem strFold_wf (codes : List Int) (tu : TransUnit) (hwf : instWF tu) :
    instWF (codes.foldl (fun t code => emitData t (w16 code)) tu) := by
  induction codes generalizing tu with
  | nil => exact hwf
  | cons c rest ih => exact ih (emitData tu (w16 c)) hwf

theorem secondPassData_wf (ops : List DataOp) (tu : TransUnit) (n : Nat)
    (hwf : instWF tu) : instWF (secondPassData tu n ops).1 := by
  induction ops generalizing tu with
  | nil => exact hwf
  | cons op rest ih =>
    cases op with
    | dInt v => exact ih (emitData tu (w16 v)) hwf
    | dConst nm =>
      simp only [secondPassData]
      split
      · split
        · exact ih _ hwf
        · exact ih tu hwf
      · exact ih tu hwf

theorem secondPassLine_wf (tu : TransUnit) (n : Nat) (line : List Char)
    (hwf : instWF tu) : instWF (secondPassLine tu n line).1 := by
  unfold secondPassLine
  dsimp only
  split
  · split
    · exact instWF_emit2 _ _ _
        (instWF_emit3 _ _ _ _ hwf
          (by rw [lorMod4, lorMod4, shl_mod4 _ 4 (by decide), shl_mod4 _ 2 (by decide),
                shl_mod4 _ 6 (by decide)]; decide))
        (by rw [lorMod4, w16_mul4_mod4, w16_mul32_mod4]; decide)
    · exact secondPassOperand_wf _ _ _ _ (secondPassOperand_wf _ _ _ _
        (instWF_emit3 _ _ _ _ hwf
          (by rw [lorMod4, lorMod4, shl_mod4 _ 4 (by decide), shl_mod4 _ 2 (by decide),
                shl_mod4 _ 6 (by decide)]; decide)))
  · split
    · split
      · exact strFold_wf _ tu hwf
      · split
        · exact secondPassData_wf _ tu n hwf
        · exact hwf
    · exact hwf

theorem secondPassRun_wf (lines : List (List Char)) (n : Nat) (tu : TransUnit)
    (err : Bool) (hwf : instWF tu) : instWF (secondPassRun lines n tu err).1 := by
  induction lines generalizing n tu err with
  | nil => exact hwf
  | cons l rest ih =>
    simp only [secondPassRun]
    exact ih _ _ _ (secondPassLine_wf tu n l hwf)

/-- Claim C8: starting from an instruction image whose cells at and above
`ic` are zero (as `main` hands it over) and none of whose cells carries
the A/R/E pattern 11, after any run of the second pass no cell of the
instruction image carries 11 in bits 0..1: every word the second pass
writes has its 2-bit A/R/E field equal to 00, 01 or 10. -/
theorem spec2_c8 (lines : List (List Char)) (n : Nat) (tu : TransUnit) (err : Bool)
    (h0 : ∀ j, tu.ic ≤ j → tu.instArr j = 0)
    (h3 : ∀ j, tu.instArr j % 4 ≠ 3) :
    ∀ j, (secondPassRun lines n tu err).1.instArr j % 4 ≠ 3 :=
  (secondPassRun_wf lines n tu err ⟨h0, h3⟩).2

theorem spec2_c8_witness :
    (secondPassRun c8lines 1 (zeroTU c8tbl) false).1.instArr 1 % 4 ≠ 3 :=
  spec2_c8 c8lines 1 (zeroTU c8tbl) false (fun _ _ => rfl)
    (fun _ => (by decide : (0 : Nat) % 4 ≠ 3)) 1

/-- Claim C2 amended: for every file that reaches emission the `.ob`
header line is two spaces, the printed `ic`, one space, the printed `dc`
— and the printed `ic` is the second-pass instruction counter, which
starts at 0 and bounds every written instruction-image cell (all cells
from it upward are still zero), i.e. it equals the number of instruction
words emitted, NOT 100 plus that number; on the specification's own
example with no instructions and three data words the header is
`  0 3`. -/
theorem spec2_c2_amended :
    (∀ tu : TransUnit,
      obFirstLine tu =
        ' ' :: ' ' :: decDigits tu.ic ++ ' ' :: decDigits tu.dc ++ ['\n']) ∧
    (∀ (lines : List (List Char)) (n : Nat) (tu : TransUnit) (err : Bool),
      (∀ j, tu.ic ≤ j → tu.instArr j = 0) → (∀ j, tu.instArr j % 4 ≠ 3) →
      ∀ j, (secondPassRun lines n tu err).1.ic ≤ j →
        (secondPassRun lines n tu err).1.instArr j = 0) ∧
    (assembleTU c2src 10).map obFirstLine = some c2headerActual := by
  refine ⟨fun tu => rfl, ?_, by rfl⟩
  intro lines n tu err h0 h3 j hj
  exact (secondPassRun_wf lines n tu err ⟨h0, h3⟩).1 j hj

theorem spec2_c2_amended_witness :
    (assembleTU c2src 10).map obFirstLine = some c2headerActual ∧
    (secondPassRun c8lines 1 (zeroTU c8tbl) false).1.instArr 99 = 0 :=
  ⟨spec2_c2_amended.2.2,
   spec2_c2_amended.2.1 c8lines 1 (zeroTU c8tbl) false (fun _ _ => rfl)
     (fun _ => (by decide : (0 : Nat) % 4 ≠ 3)) 99 (by decide)⟩

/-- Claim C3 amended: while a macro body is being recorded
(`mcr_ptr` set), a line classified as ordinary is appended verbatim to
the recording macro's body with nothing emitted; but a line classified as
a macro call — any line whose first token names an already-defined macro
— has that macro's stored body spliced into the `.am` output immediately
and verbatim (no re-scan, so expansion never recurses), is not appended,
and clears the recording pointer. -/
theorem spec2_c3_amended :
    (∀ (st : McrSt) (nm chunk : List Char), st.recPtr = some nm →
      overlongCheck chunk = false →
      lineIdentifier st.table chunk = LiRes.liOther →
      preStep st chunk = some { st with table := appendBody st.table nm chunk }) ∧
    (∀ (st : McrSt) (nm m chunk : List Char), st.recPtr = some nm →
      overlongCheck chunk = false →
      lineIdentifier st.table chunk = LiRes.liCall m →
      preStep st chunk =
        some { st with
          output := st.output ++ ((mcrLookup m st.table).map Prod.snd).getD [],
          recPtr := none }) := by
  constructor
  · intro st nm chunk hrec hol hid
    simp [preStep, hol, hid, hrec]
  · intro st nm m chunk hrec hol hid
    simp [preStep, hol, hid]

theorem spec2_c3_amended_witness :
    preStep c3recSt c3otherLine =
      some { c3recSt with table := appendBody c3recSt.table ['M'] c3otherLine } ∧
    preStep c3recSt c3callLine =
      some { c3recSt with
        output := c3recSt.output ++
          ((mcrLookup ['A'] c3recSt.table).map Prod.snd).getD [],
        recPtr := none } :=
  ⟨spec2_c3_amended.1 c3recSt ['M'] c3otherLine rfl (by decide) (by decide),
   spec2_c3_amended.2 c3recSt ['M'] ['A'] c3callLine rfl (by decide) (by decide)⟩
